import Mathlib

/-!
Shallow embedding of the MADlib convex-optimization module
(`src/modules/convex/linear_svm_igd.cpp`, `linear_svm_cg.cpp`,
`logit_igd.cpp`, `linear_svm_loss.cpp`).

Doubles are embedded as rationals (`ℚ`); column vectors as `List ℚ`;
row counts as `ℕ`.  The headers `type/state.hpp`, `algo/igd.hpp`,
`algo/loss.hpp`, `algo/conjugate_gradient.hpp`, `task/linear_svm.hpp`
and `task/logit.hpp` are not part of the repository snapshot, so the
pieces of behaviour they contribute are modelled from the specification
(each such definition says so in its doc comment); the `.cpp` bodies are
translated directly.
-/

namespace Madlib

/-- Dot product of two column vectors (Eigen `a.dot(b)`). -/
def dot (a b : List ℚ) : ℚ := (List.zipWith (fun x y => x * y) a b).sum

/-- Elementwise vector addition. -/
def vadd (a b : List ℚ) : List ℚ := List.zipWith (fun x y => x + y) a b

/-- Elementwise vector subtraction. -/
def vsub (a b : List ℚ) : List ℚ := List.zipWith (fun x y => x - y) a b

/-- Scalar multiple of a vector. -/
def smul (c : ℚ) (a : List ℚ) : List ℚ := a.map (fun x => c * x)

/-- Modelled from the spec: `type/state.hpp` is not under `src/`.
`GLMIGDState` per §3: task configuration (dimension, stepsize), the model
vector, and the algorithm-specific accumulator (loss sum) plus the row
count. -/
structure GLMIGDState where
  dimension : Nat
  stepsize : ℚ
  model : List ℚ
  numRows : Nat
  loss : ℚ
deriving DecidableEq

/-- Modelled from the spec: `type/state.hpp` is not under `src/`.
`GLMCGState` per §3/§4.2: task configuration (dimension, iteration
counter, model, conjugate direction — the direction bookkeeping is
carried in the task config across iterations) and the algorithm
accumulator (gradient sum, loss sum, row count). -/
structure GLMCGState where
  dimension : Nat
  iteration : Nat
  model : List ℚ
  direction : List ℚ
  gradient : List ℚ
  numRows : Nat
  loss : ℚ
deriving DecidableEq

/-- Modelled from the spec: `type/state.hpp` is not under `src/`.
`GLMBestBallState` per §4.5: one loss total per candidate stepsize
(`dimension` is the number of candidates, mirroring
`state.allocate(*this, stepsizes.size())` in
`linear_svm_best_ball_transition`). -/
structure GLMBestBallState where
  dimension : Nat
  loss_list : List ℚ
  numRows : Nat
deriving DecidableEq

/-- Modelled from the spec: the `Task` contract of §4.1 (`task/*.hpp` is
not under `src/`): a gradient and a loss function of (model, features,
label).  Mirrors the C++ template parameter `Task` of `IGD<...>`,
`ConjugateGradient<...>` and `Loss<...>`. -/
structure GLMTask where
  grad : List ℚ → List ℚ → ℚ → List ℚ
  lossf : List ℚ → List ℚ → ℚ → ℚ

namespace LinearSVM

/-- Modelled from the spec: `task/linear_svm.hpp` is not under `src/`.
Hinge-loss subgradient (§4.1): zero when the margin `y·(w·x)` is ≥ 1,
otherwise `−y·x`. -/
def gradient (model x : List ℚ) (y : ℚ) : List ℚ :=
  if 1 ≤ y * dot model x then List.replicate model.length 0 else smul (-y) x

/-- Modelled from the spec: `task/linear_svm.hpp` is not under `src/`.
Hinge loss `max(0, 1 − y·(w·x))`. -/
def loss (model x : List ℚ) (y : ℚ) : ℚ :=
  if 1 ≤ y * dot model x then 0 else 1 - y * dot model x

/-- Modelled from the spec: `task/linear_svm.hpp` is not under `src/`.
`LinearSVM::predict` returns the raw linear score `model·x` (§4.6:
regression objectives return the raw score; the classification wrapper
in `linear_svm_loss.cpp` thresholds it). -/
def predict (model x : List ℚ) : ℚ := dot model x

end LinearSVM

/-- The `LinearSVM` task packaged for the generic algorithms. -/
def svmTask : GLMTask := ⟨LinearSVM.gradient, LinearSVM.loss⟩

namespace Logit

/-- Modelled from the spec: `task/logit.hpp` is not under `src/`.
`Logit::predict` returns the predicted probability, the sigmoid of the
linear score (§4.1, §4.6).  The sigmoid itself is kept abstract (a
parameter), since no claim depends on its values and the exponential is
not a rational function. -/
def predict (sigmoid : ℚ → ℚ) (model x : List ℚ) : ℚ :=
  sigmoid (dot model x)

end Logit

/-- Modelled from the spec: `state.reset()` (`type/state.hpp` is not
under `src/`) zeroes the algorithm-specific fields of an IGD state: the
row count and the loss sum (§4.2 initialize: "zero the
algorithm-specific fields"). -/
def GLMIGDState.reset (s : GLMIGDState) : GLMIGDState :=
  { s with numRows := 0, loss := 0 }

/-- Modelled from the spec: `state.reset()` for a CG state zeroes the
algorithm accumulator — row count, loss sum and gradient sum; the
direction and iteration counter are task configuration carried across
iterations (§4.2). -/
def GLMCGState.reset (s : GLMCGState) : GLMCGState :=
  { s with numRows := 0, loss := 0, gradient := List.replicate s.dimension 0 }

/-- The all-zero initial aggregate state (SQL `INITCOND='{0,0,0,0,0}'`). -/
def emptyIGD : GLMIGDState := ⟨0, 0, [], 0, 0⟩

/-- The all-zero initial aggregate state for the CG aggregate. -/
def emptyCG : GLMCGState := ⟨0, 0, [], [], [], 0, 0⟩

/-- The all-zero initial state for the best-ball aggregate. -/
def emptyBB : GLMBestBallState := ⟨0, [], 0⟩

/-- Transition-time failure (§4.2/§7). -/
inductive TransError where
  | dimensionMismatch
deriving DecidableEq

/-- Initialization block of `linear_svm_igd_transition`
(`linear_svm_igd.cpp` lines 47–65): on the first tuple
(`numRows == 0`), either copy the previous finalized state and override
the stepsize from the current argument, or allocate a fresh zero model
of the configured dimension with the given stepsize; in either case
`reset()` the algorithm-specific fields. -/
def linear_svm_igd_init (state : GLMIGDState) (previous : Option GLMIGDState)
    (dimension : Nat) (stepsize : ℚ) : GLMIGDState :=
  if state.numRows = 0 then
    match previous with
    | some p => GLMIGDState.reset { p with stepsize := stepsize }
    | none => GLMIGDState.reset
        { dimension := dimension, stepsize := stepsize,
          model := List.replicate dimension 0, numRows := 0, loss := 0 }
  else state

/-- Initialization block of `logit_igd_transition` (`logit_igd.cpp`
lines 47–63): same as the SVM variant except that a copied previous
state keeps its own stepsize. -/
def logit_igd_init (state : GLMIGDState) (previous : Option GLMIGDState)
    (dimension : Nat) (stepsize : ℚ) : GLMIGDState :=
  if state.numRows = 0 then
    match previous with
    | some p => GLMIGDState.reset p
    | none => GLMIGDState.reset
        { dimension := dimension, stepsize := stepsize,
          model := List.replicate dimension 0, numRows := 0, loss := 0 }
  else state

/-- Initialization block of `linear_svm_cg_transition`
(`linear_svm_cg.cpp` lines 49–62): copy the previous state wholesale or
allocate zeros of the configured dimension, then `reset()`. -/
def linear_svm_cg_init (state : GLMCGState) (previous : Option GLMCGState)
    (dimension : Nat) : GLMCGState :=
  if state.numRows = 0 then
    match previous with
    | some p => GLMCGState.reset p
    | none => GLMCGState.reset
        { dimension := dimension, iteration := 0,
          model := List.replicate dimension 0,
          direction := List.replicate dimension 0,
          gradient := List.replicate dimension 0, numRows := 0, loss := 0 }
  else state

/-- Modelled from the spec: `IGD<...>::transition` (`algo/igd.hpp` is not
under `src/`) performs `model ← model − α·gradient(model, example)`
(§4.2); `Loss<...>::transition` (`algo/loss.hpp`) accumulates the running
loss; the `.cpp` transition then increments `numRows`. -/
def igdStep (T : GLMTask) (s : GLMIGDState) (x : List ℚ) (y : ℚ) : GLMIGDState :=
  { s with
    model := vsub s.model (smul s.stepsize (T.grad s.model x y)),
    loss := s.loss + T.lossf s.model x y,
    numRows := s.numRows + 1 }

/-- Modelled from the spec: `ConjugateGradient<...>::transition`
(`algo/conjugate_gradient.hpp` is not under `src/`) keeps the model fixed
for the whole pass and accumulates `Σ gradient`; `Loss<...>::transition`
accumulates `Σ loss`; the `.cpp` transition then increments `numRows`
(§4.2, §4.3). -/
def cgStep (T : GLMTask) (s : GLMCGState) (x : List ℚ) (y : ℚ) : GLMCGState :=
  { s with
    gradient := vadd s.gradient (T.grad s.model x y),
    loss := s.loss + T.lossf s.model x y,
    numRows := s.numRows + 1 }

/-- Embedding of `linear_svm_igd_transition` (`linear_svm_igd.cpp` lines 39–79).  The
dimension check is modelled from the spec (§4.2: "fails with
DimensionMismatch if example length ≠ configured D"); its C++ location is
inside the missing task header's vector operations. -/
def linear_svm_igd_transition (state : GLMIGDState) (x : List ℚ) (y : ℚ)
    (previous : Option GLMIGDState) (dimension : Nat) (stepsize : ℚ) :
    Except TransError GLMIGDState :=
  let s := linear_svm_igd_init state previous dimension stepsize
  if x.length = s.dimension then .ok (igdStep svmTask s x y)
  else .error .dimensionMismatch

/-- Embedding of `logit_igd_transition` (`logit_igd.cpp` lines 39–77), generic over
the logistic task functions (its gradient and loss live in the missing
`task/logit.hpp` and are kept abstract). -/
def logit_igd_transition (T : GLMTask) (state : GLMIGDState) (x : List ℚ)
    (y : ℚ) (previous : Option GLMIGDState) (dimension : Nat) (stepsize : ℚ) :
    Except TransError GLMIGDState :=
  let s := logit_igd_init state previous dimension stepsize
  if x.length = s.dimension then .ok (igdStep T s x y)
  else .error .dimensionMismatch

/-- Embedding of `linear_svm_cg_transition` (`linear_svm_cg.cpp` lines 41–76). -/
def linear_svm_cg_transition (state : GLMCGState) (x : List ℚ) (y : ℚ)
    (previous : Option GLMCGState) (dimension : Nat) :
    Except TransError GLMCGState :=
  let s := linear_svm_cg_init state previous dimension
  if x.length = s.dimension then .ok (cgStep svmTask s x y)
  else .error .dimensionMismatch

/-- Modelled from the spec: `IGD<...>::merge` (`algo/igd.hpp` is not
under `src/`) sets the model to the rowCount-weighted average of the two
models (§4.2); it reads the row counts of its operands as they stand when
it is called. -/
def igdAlgoMerge (l r : GLMIGDState) : GLMIGDState :=
  let avg : ℚ → ℚ → ℚ := fun a b =>
    ((l.numRows : ℚ) * a + (r.numRows : ℚ) * b)
      / ((l.numRows : ℚ) + (r.numRows : ℚ))
  { l with model := List.zipWith avg l.model r.model }

/-- Modelled from the spec: `Loss<...>::merge` adds the loss sums (§4.2). -/
def lossAlgoMergeIGD (l r : GLMIGDState) : GLMIGDState :=
  { l with loss := l.loss + r.loss }

/-- Embedding of `linear_svm_igd_merge` (`linear_svm_igd.cpp` lines 84–102): empty
(`numRows == 0`) operands short-circuit; otherwise the algorithm-specific
merge and the loss merge run first and the `numRows` update comes last,
because the model averaging depends on the original values. -/
def linear_svm_igd_merge (stateLeft stateRight : GLMIGDState) : GLMIGDState :=
  if stateLeft.numRows = 0 then stateRight
  else if stateRight.numRows = 0 then stateLeft
  else
    let s1 := igdAlgoMerge stateLeft stateRight
    let s2 := lossAlgoMergeIGD s1 stateRight
    { s2 with numRows := s2.numRows + stateRight.numRows }

/-- Embedding of `logit_igd_merge` (`logit_igd.cpp` lines 82–100): same body as the
SVM IGD merge (both instantiate `IGD<...>::merge` / `Loss<...>::merge`). -/
def logit_igd_merge (stateLeft stateRight : GLMIGDState) : GLMIGDState :=
  if stateLeft.numRows = 0 then stateRight
  else if stateRight.numRows = 0 then stateLeft
  else
    let s1 := igdAlgoMerge stateLeft stateRight
    let s2 := lossAlgoMergeIGD s1 stateRight
    { s2 with numRows := s2.numRows + stateRight.numRows }

/-- Modelled from the spec: `ConjugateGradient<...>::merge` combines the
gradient sums by plain addition (§4.2). -/
def cgAlgoMerge (l r : GLMCGState) : GLMCGState :=
  { l with gradient := vadd l.gradient r.gradient }

/-- Modelled from the spec: `Loss<...>::merge` adds the loss sums. -/
def lossAlgoMergeCG (l r : GLMCGState) : GLMCGState :=
  { l with loss := l.loss + r.loss }

/-- Embedding of `linear_svm_cg_merge` (`linear_svm_cg.cpp` lines 81–99). -/
def linear_svm_cg_merge (stateLeft stateRight : GLMCGState) : GLMCGState :=
  if stateLeft.numRows = 0 then stateRight
  else if stateRight.numRows = 0 then stateLeft
  else
    let s1 := cgAlgoMerge stateLeft stateRight
    let s2 := lossAlgoMergeCG s1 stateRight
    { s2 with numRows := s2.numRows + stateRight.numRows }

/-- Embedding of `linear_svm_best_ball_merge` (`linear_svm_loss.cpp` lines 89–101):
empty operands short-circuit; otherwise the per-candidate loss totals add
elementwise and the row counts add. -/
def linear_svm_best_ball_merge (stateLeft stateRight : GLMBestBallState) :
    GLMBestBallState :=
  if stateLeft.numRows = 0 then stateRight
  else if stateRight.numRows = 0 then stateLeft
  else
    { stateLeft with
      loss_list := vadd stateLeft.loss_list stateRight.loss_list,
      numRows := stateLeft.numRows + stateRight.numRows }

/-- Modelled from the spec: `IGD<...>::final` applies no further
transform — the model is already the merged average (§4.4 "IGD: no
further transform"). -/
def igdAlgoFinal (s : GLMIGDState) : GLMIGDState := s

/-- Embedding of `linear_svm_igd_final` (`linear_svm_igd.cpp` lines 107–124):
aggregates that have seen no data return Null (`none`); otherwise the
algorithm-specific final step runs and the state is returned. -/
def linear_svm_igd_final (state : GLMIGDState) : Option GLMIGDState :=
  if state.numRows = 0 then none
  else some (igdAlgoFinal state)

/-- Embedding of `logit_igd_final` (`logit_igd.cpp` lines 105–122): same shape as the
SVM IGD final. -/
def logit_igd_final (state : GLMIGDState) : Option GLMIGDState :=
  if state.numRows = 0 then none
  else some (igdAlgoFinal state)

/-- Modelled from the spec: `ConjugateGradient<...>::final`
(`algo/conjugate_gradient.hpp` is not under `src/`) computes a new
conjugate search direction from the accumulated gradient and the previous
direction (Fletcher-Reeves/Polak-Ribière style, §4.4); on the first
iteration the direction is the negative gradient. -/
def cgAlgoFinal (s : GLMCGState) : GLMCGState :=
  if s.iteration = 0 then
    { s with direction := smul (-1) s.gradient }
  else
    let beta : ℚ := dot s.gradient s.gradient / dot s.direction s.direction
    { s with direction := vadd (smul (-1) s.gradient) (smul beta s.direction) }

/-- Embedding of `linear_svm_cg_final` (`linear_svm_cg.cpp` lines 104–122): Null on no
data; otherwise the algorithm-specific final step runs and
`task.iteration` is incremented. -/
def linear_svm_cg_final (state : GLMCGState) : Option GLMCGState :=
  if state.numRows = 0 then none
  else
    let s1 := cgAlgoFinal state
    some { s1 with iteration := s1.iteration + 1 }

/-- Embedding of `linear_svm_cg_update` (`linear_svm_cg.cpp` lines 137–153): if the
state is unallocated (`dimension == 0`) allocate a zero model of the
configured dimension first, then `model += stepsize * direction`. -/
def linear_svm_cg_update (state : GLMCGState) (direction : List ℚ)
    (dimension : Nat) (stepsize : ℚ) : GLMCGState :=
  let s := if state.dimension = 0 then
      { dimension := dimension, iteration := 0,
        model := List.replicate dimension 0,
        direction := List.replicate dimension 0,
        gradient := List.replicate dimension 0, numRows := 0, loss := 0 }
    else state
  { s with model := vadd s.model (smul stepsize direction) }

/-- A double-precision value as produced by the distance computation:
IEEE-754 division by zero yields an infinity (or NaN for 0/0) rather
than a fault. -/
inductive FVal where
  | fin (q : ℚ)
  | posInf
  | negInf
  | nan
deriving DecidableEq

/-- IEEE-754 division of two finite doubles, at rational precision for
finite results. -/
def fdiv (a b : ℚ) : FVal :=
  if b = 0 then (if a = 0 then .nan else if 0 < a then .posInf else .negInf)
  else .fin (a / b)

/-- Absolute value: `std::abs` lifted to the IEEE value model. -/
def fabs : FVal → FVal
  | .fin q => .fin |q|
  | .posInf => .posInf
  | .negInf => .posInf
  | .nan => .nan

/-- The IEEE `<` comparison against a finite tolerance: comparisons with
NaN are false, `+∞ < tol` is false, `−∞ < tol` is true. -/
def fltLt (x : FVal) (tol : ℚ) : Bool :=
  match x with
  | .fin q => decide (q < tol)
  | .posInf => false
  | .negInf => true
  | .nan => false

/-- Embedding of `internal_linear_svm_igd_distance` (`linear_svm_igd.cpp` lines
140–147): `std::abs((lossLeft − lossRight) / lossRight)`. -/
def internal_linear_svm_igd_distance (stateLeft stateRight : GLMIGDState) :
    FVal :=
  fabs (fdiv (stateLeft.loss - stateRight.loss) stateRight.loss)

/-- Embedding of `internal_logit_igd_distance` (`logit_igd.cpp` lines 127–134): same
body as the SVM IGD distance. -/
def internal_logit_igd_distance (stateLeft stateRight : GLMIGDState) : FVal :=
  fabs (fdiv (stateLeft.loss - stateRight.loss) stateRight.loss)

/-- Embedding of `internal_linear_svm_cg_distance` (`linear_svm_cg.cpp` lines
158–165). -/
def internal_linear_svm_cg_distance (stateLeft stateRight : GLMCGState) :
    FVal :=
  fabs (fdiv (stateLeft.loss - stateRight.loss) stateRight.loss)

/-- Embedding of `linear_svm_predict` (`linear_svm_loss.cpp` lines 43–52): threshold
the linear score strictly at zero. -/
def linear_svm_predict (model indVar : List ℚ) : Bool :=
  decide (LinearSVM.predict model indVar > 0)

/-- Embedding of `logit_igd_predict` (`logit_igd.cpp` lines 153–162): threshold the
predicted probability strictly at 0.5. -/
def logit_igd_predict (sigmoid : ℚ → ℚ) (model indVar : List ℚ) : Bool :=
  decide (Logit.predict sigmoid model indVar > 1/2)

/-- The scan loop of `linear_svm_greedy_step_size`
(`linear_svm_loss.cpp` lines 115–122): running minimum `mn` and its
index `mini`, updated only on a strict decrease. -/
def argminLoop : List ℚ → Nat → ℚ → Nat → ℚ × Nat
  | [], _, mn, mini => (mn, mini)
  | l :: rest, i, mn, mini =>
      if mn > l then argminLoop rest (i + 1) l i
      else argminLoop rest (i + 1) mn mini

/-- Embedding of `linear_svm_greedy_step_size` (`linear_svm_loss.cpp` lines 110–125):
start from `loss_list(0)` at index 0, scan indices `1 ≤ i <
stepsizes.size()` of `loss_list`, and return the stepsize at the index of
the (first) minimum. -/
def linear_svm_greedy_step_size (loss_list stepsizes : List ℚ) : ℚ :=
  let r := argminLoop ((loss_list.drop 1).take (stepsizes.length - 1)) 1
      (loss_list.getD 0 0) 0
  stepsizes.getD r.2 0

/-- C1 counterexample: the claim "merge(S, empty) == S for every state S"
fails at a concrete left operand that has `rowCount == 0` but is not the
all-zero sentinel: the first short-circuit branch fires and returns the
right (empty) operand instead of S. -/
theorem merge_right_identity_cex :
    linear_svm_igd_merge ⟨0, 0, [], 0, 1⟩ emptyIGD ≠ ⟨0, 0, [], 0, 1⟩ := by
  simp [linear_svm_igd_merge, emptyIGD]

/-- C1 (amended): merging with an empty (`rowCount == 0`) operand returns
the other operand unchanged — unconditionally when the empty operand is
on the left, and whenever the other operand is non-empty when the empty
operand is on the right (if both operands are empty, the merge returns
the right operand, itself an empty sentinel) — for the IGD merge, the CG
merge and the best-ball merge. -/
theorem merge_empty_sentinel_identity :
    (∀ E S : GLMIGDState, E.numRows = 0 →
      linear_svm_igd_merge E S = S ∧
        (S.numRows ≠ 0 → linear_svm_igd_merge S E = S)) ∧
    (∀ E S : GLMCGState, E.numRows = 0 →
      linear_svm_cg_merge E S = S ∧
        (S.numRows ≠ 0 → linear_svm_cg_merge S E = S)) ∧
    (∀ E S : GLMBestBallState, E.numRows = 0 →
      linear_svm_best_ball_merge E S = S ∧
        (S.numRows ≠ 0 → linear_svm_best_ball_merge S E = S)) := by
  refine ⟨fun E S hE => ⟨?_, fun hS => ?_⟩,
      fun E S hE => ⟨?_, fun hS => ?_⟩, fun E S hE => ⟨?_, fun hS => ?_⟩⟩
  · simp [linear_svm_igd_merge, hE]
  · simp [linear_svm_igd_merge, hE, hS]
  · simp [linear_svm_cg_merge, hE]
  · simp [linear_svm_cg_merge, hE, hS]
  · simp [linear_svm_best_ball_merge, hE]
  · simp [linear_svm_best_ball_merge, hE, hS]

/-- Witness for the amended C1 at concrete states. -/
theorem merge_empty_sentinel_identity_witness :
    linear_svm_igd_merge emptyIGD ⟨2, 1, [3, 4], 5, 6⟩ = ⟨2, 1, [3, 4], 5, 6⟩ ∧
    linear_svm_igd_merge ⟨2, 1, [3, 4], 5, 6⟩ emptyIGD = ⟨2, 1, [3, 4], 5, 6⟩ ∧
    linear_svm_cg_merge emptyCG ⟨1, 1, [2], [3], [4], 5, 6⟩ =
      ⟨1, 1, [2], [3], [4], 5, 6⟩ ∧
    linear_svm_best_ball_merge ⟨2, [1, 2], 3⟩ emptyBB = ⟨2, [1, 2], 3⟩ := by
  have h := merge_empty_sentinel_identity
  exact ⟨(h.1 emptyIGD _ rfl).1, (h.1 emptyIGD _ rfl).2 (by decide),
    (h.2.1 emptyCG _ rfl).1, (h.2.2 emptyBB _ rfl).2 (by decide)⟩

/-- C2: for two non-empty states, the merged row count is the sum of the
operands' row counts, and the IGD model average is weighted by the
pre-merge row counts (the `numRows` update runs after the
algorithm-specific merge). -/
theorem merge_rowcount_sum_after_algo_merge :
    (∀ l r : GLMIGDState, l.numRows ≠ 0 → r.numRows ≠ 0 →
      (linear_svm_igd_merge l r).numRows = l.numRows + r.numRows ∧
      (linear_svm_igd_merge l r).model = List.zipWith
        (fun a b => ((l.numRows : ℚ) * a + (r.numRows : ℚ) * b)
          / ((l.numRows : ℚ) + (r.numRows : ℚ))) l.model r.model) ∧
    (∀ l r : GLMIGDState, l.numRows ≠ 0 → r.numRows ≠ 0 →
      (logit_igd_merge l r).numRows = l.numRows + r.numRows ∧
      (logit_igd_merge l r).model = List.zipWith
        (fun a b => ((l.numRows : ℚ) * a + (r.numRows : ℚ) * b)
          / ((l.numRows : ℚ) + (r.numRows : ℚ))) l.model r.model) ∧
    (∀ l r : GLMCGState, l.numRows ≠ 0 → r.numRows ≠ 0 →
      (linear_svm_cg_merge l r).numRows = l.numRows + r.numRows) := by
  refine ⟨fun l r hl hr => ?_, fun l r hl hr => ?_, fun l r hl hr => ?_⟩
  · constructor <;>
      simp [linear_svm_igd_merge, igdAlgoMerge, lossAlgoMergeIGD, hl, hr]
  · constructor <;>
      simp [logit_igd_merge, igdAlgoMerge, lossAlgoMergeIGD, hl, hr]
  · simp [linear_svm_cg_merge, cgAlgoMerge, lossAlgoMergeCG, hl, hr]

/-- Witness for C2 at concrete non-empty states. -/
theorem merge_rowcount_sum_witness :
    (linear_svm_igd_merge ⟨1, 1, [2], 1, 0⟩ ⟨1, 1, [4], 3, 0⟩).numRows = 1 + 3 ∧
    (linear_svm_igd_merge ⟨1, 1, [2], 1, 0⟩ ⟨1, 1, [4], 3, 0⟩).model =
      List.zipWith
        (fun a b => (((1 : ℕ) : ℚ) * a + (((3 : ℕ)) : ℚ) * b)
          / (((1 : ℕ) : ℚ) + (((3 : ℕ)) : ℚ))) [2] [4] ∧
    (linear_svm_cg_merge ⟨1, 0, [2], [0], [0], 2, 0⟩
      ⟨1, 0, [2], [0], [0], 5, 0⟩).numRows = 2 + 5 := by
  have h := merge_rowcount_sum_after_algo_merge
  exact ⟨(h.1 ⟨1, 1, [2], 1, 0⟩ ⟨1, 1, [4], 3, 0⟩ one_ne_zero (by decide)).1,
    (h.1 ⟨1, 1, [2], 1, 0⟩ ⟨1, 1, [4], 3, 0⟩ one_ne_zero (by decide)).2,
    h.2.2 ⟨1, 0, [2], [0], [0], 2, 0⟩ ⟨1, 0, [2], [0], [0], 5, 0⟩
      (by decide) (by decide)⟩

/-- Helper: an IEEE quotient with zero denominator is never below a
finite tolerance (it is NaN or an infinity of the absolute value). -/
lemma fltLt_fabs_fdiv_zero (a tol : ℚ) : fltLt (fabs (fdiv a 0)) tol = false := by
  by_cases h1 : a = 0 <;> by_cases h2 : 0 < a <;>
    simp [fdiv, fabs, fltLt, h1, h2]

/-- C3: when the baseline loss is non-zero, the distance functions return
the finite relative loss change `|lossA − lossB| / |lossB|`; when the
baseline loss is zero the (total) IEEE division produces a non-finite
value instead of faulting, and the convergence comparison
`distance < tolerance` is false — not yet converged — for every
tolerance. -/
theorem distance_relative_loss_zero_baseline :
    (∀ a b : GLMIGDState,
      (b.loss ≠ 0 → internal_linear_svm_igd_distance a b =
        .fin (|a.loss - b.loss| / |b.loss|)) ∧
      (b.loss = 0 → ∀ tol : ℚ,
        fltLt (internal_linear_svm_igd_distance a b) tol = false)) ∧
    (∀ a b : GLMIGDState,
      (b.loss ≠ 0 → internal_logit_igd_distance a b =
        .fin (|a.loss - b.loss| / |b.loss|)) ∧
      (b.loss = 0 → ∀ tol : ℚ,
        fltLt (internal_logit_igd_distance a b) tol = false)) ∧
    (∀ a b : GLMCGState,
      (b.loss ≠ 0 → internal_linear_svm_cg_distance a b =
        .fin (|a.loss - b.loss| / |b.loss|)) ∧
      (b.loss = 0 → ∀ tol : ℚ,
        fltLt (internal_linear_svm_cg_distance a b) tol = false)) := by
  refine ⟨fun a b => ⟨fun hb => ?_, fun hb tol => ?_⟩,
      fun a b => ⟨fun hb => ?_, fun hb tol => ?_⟩,
      fun a b => ⟨fun hb => ?_, fun hb tol => ?_⟩⟩
  case _ => simp [internal_linear_svm_igd_distance, fdiv, fabs, hb, abs_div]
  case _ =>
    simp only [internal_linear_svm_igd_distance, hb]
    exact fltLt_fabs_fdiv_zero _ tol
  case _ => simp [internal_logit_igd_distance, fdiv, fabs, hb, abs_div]
  case _ =>
    simp only [internal_logit_igd_distance, hb]
    exact fltLt_fabs_fdiv_zero _ tol
  case _ => simp [internal_linear_svm_cg_distance, fdiv, fabs, hb, abs_div]
  case _ =>
    simp only [internal_linear_svm_cg_distance, hb]
    exact fltLt_fabs_fdiv_zero _ tol

/-- Witness for C3 at concrete states. -/
theorem distance_relative_loss_witness :
    internal_linear_svm_igd_distance ⟨1, 0, [], 1, 6⟩ ⟨1, 0, [], 1, 2⟩ =
      .fin (|(6 : ℚ) - 2| / |(2 : ℚ)|) ∧
    fltLt (internal_linear_svm_igd_distance ⟨1, 0, [], 1, 6⟩ ⟨1, 0, [], 1, 0⟩)
      100 = false := by
  have h := distance_relative_loss_zero_baseline
  exact ⟨(h.1 ⟨1, 0, [], 1, 6⟩ ⟨1, 0, [], 1, 2⟩).1 (by norm_num),
    (h.1 ⟨1, 0, [], 1, 6⟩ ⟨1, 0, [], 1, 0⟩).2 rfl 100⟩

/-- C4: for every state with `rowCount == 0`, finalize returns the
"no data" Null signal (`none`), and for every state with `rowCount > 0`
it returns a finalized state — for the IGD, logistic and CG finalize
operations. -/
theorem final_no_data_signal :
    (∀ s : GLMIGDState, (s.numRows = 0 → linear_svm_igd_final s = none) ∧
      (s.numRows ≠ 0 → linear_svm_igd_final s = some (igdAlgoFinal s))) ∧
    (∀ s : GLMIGDState, (s.numRows = 0 → logit_igd_final s = none) ∧
      (s.numRows ≠ 0 → logit_igd_final s = some (igdAlgoFinal s))) ∧
    (∀ s : GLMCGState, (s.numRows = 0 → linear_svm_cg_final s = none) ∧
      (s.numRows ≠ 0 → ∃ t, linear_svm_cg_final s = some t)) := by
  refine ⟨fun s => ⟨fun h => ?_, fun h => ?_⟩, fun s => ⟨fun h => ?_, fun h => ?_⟩,
      fun s => ⟨fun h => ?_, fun h => ?_⟩⟩ <;>
    simp [linear_svm_igd_final, logit_igd_final, linear_svm_cg_final, h]

/-- Witness for C4 at concrete states. -/
theorem final_no_data_signal_witness :
    linear_svm_igd_final emptyIGD = none ∧
    linear_svm_igd_final ⟨1, 1, [2], 3, 4⟩ =
      some (igdAlgoFinal ⟨1, 1, [2], 3, 4⟩) ∧
    logit_igd_final emptyIGD = none ∧
    linear_svm_cg_final emptyCG = none ∧
    (∃ t, linear_svm_cg_final ⟨1, 0, [2], [3], [4], 5, 6⟩ = some t) := by
  have h := final_no_data_signal
  exact ⟨(h.1 emptyIGD).1 rfl, (h.1 ⟨1, 1, [2], 3, 4⟩).2 (by decide),
    (h.2.1 emptyIGD).1 rfl, (h.2.2 emptyCG).1 rfl,
    (h.2.2 ⟨1, 0, [2], [3], [4], 5, 6⟩).2 (by decide)⟩

/-- C6: a transition whose example length differs from the (possibly
just-initialized) configured dimension fails with DimensionMismatch and
produces no folded state — for the SVM IGD, logistic IGD and SVM CG
transitions. -/
theorem transition_dimension_mismatch :
    (∀ (s : GLMIGDState) (x : List ℚ) (y : ℚ) (p : Option GLMIGDState)
        (d : Nat) (α : ℚ),
      x.length ≠ (linear_svm_igd_init s p d α).dimension →
      linear_svm_igd_transition s x y p d α = .error .dimensionMismatch) ∧
    (∀ (T : GLMTask) (s : GLMIGDState) (x : List ℚ) (y : ℚ)
        (p : Option GLMIGDState) (d : Nat) (α : ℚ),
      x.length ≠ (logit_igd_init s p d α).dimension →
      logit_igd_transition T s x y p d α = .error .dimensionMismatch) ∧
    (∀ (s : GLMCGState) (x : List ℚ) (y : ℚ) (p : Option GLMCGState)
        (d : Nat),
      x.length ≠ (linear_svm_cg_init s p d).dimension →
      linear_svm_cg_transition s x y p d = .error .dimensionMismatch) := by
  refine ⟨fun s x y p d α h => ?_, fun T s x y p d α h => ?_,
      fun s x y p d h => ?_⟩
  · simp [linear_svm_igd_transition, h]
  · simp [logit_igd_transition, h]
  · simp [linear_svm_cg_transition, h]

/-- Witness for C6: a 1-element example against configured dimension 2. -/
theorem transition_dimension_mismatch_witness :
    linear_svm_igd_transition emptyIGD [1] 1 none 2 1 =
      .error .dimensionMismatch ∧
    logit_igd_transition svmTask emptyIGD [1] 1 none 2 1 =
      .error .dimensionMismatch ∧
    linear_svm_cg_transition emptyCG [1] 1 none 2 =
      .error .dimensionMismatch := by
  have h := transition_dimension_mismatch
  exact ⟨h.1 emptyIGD [1] 1 none 2 1 (by decide),
    h.2.1 svmTask emptyIGD [1] 1 none 2 1 (by decide),
    h.2.2 emptyCG [1] 1 none 2 (by decide)⟩

/-- C7: on the first transition call (`numRows == 0`), a supplied
previous finalized state warm-starts the pass — its model and
configuration are copied and the algorithm-specific fields are reset to
zero — while without a previous state a fresh zero model of the
configured dimension is allocated; for the SVM IGD, logistic IGD and SVM
CG transitions. -/
theorem transition_warm_start_init :
    (∀ (s p : GLMIGDState) (d : Nat) (α : ℚ), s.numRows = 0 →
      linear_svm_igd_init s (some p) d α = ⟨p.dimension, α, p.model, 0, 0⟩ ∧
      linear_svm_igd_init s none d α = ⟨d, α, List.replicate d 0, 0, 0⟩) ∧
    (∀ (s p : GLMIGDState) (d : Nat) (α : ℚ), s.numRows = 0 →
      logit_igd_init s (some p) d α =
        ⟨p.dimension, p.stepsize, p.model, 0, 0⟩ ∧
      logit_igd_init s none d α = ⟨d, α, List.replicate d 0, 0, 0⟩) ∧
    (∀ (s p : GLMCGState) (d : Nat), s.numRows = 0 →
      linear_svm_cg_init s (some p) d =
        ⟨p.dimension, p.iteration, p.model, p.direction,
          List.replicate p.dimension 0, 0, 0⟩ ∧
      linear_svm_cg_init s none d =
        ⟨d, 0, List.replicate d 0, List.replicate d 0,
          List.replicate d 0, 0, 0⟩) := by
  refine ⟨fun s p d α hs => ?_, fun s p d α hs => ?_, fun s p d hs => ?_⟩ <;>
    constructor <;>
    simp [linear_svm_igd_init, logit_igd_init, linear_svm_cg_init,
      GLMIGDState.reset, GLMCGState.reset, hs]

/-- Witness for C7 at concrete states. -/
theorem transition_warm_start_init_witness :
    linear_svm_igd_init emptyIGD (some ⟨2, 3, [4, 5], 6, 7⟩) 9 (1 / 2) =
      ⟨2, 1 / 2, [4, 5], 0, 0⟩ ∧
    linear_svm_igd_init emptyIGD none 2 (1 / 2) =
      ⟨2, 1 / 2, List.replicate 2 0, 0, 0⟩ ∧
    logit_igd_init emptyIGD (some ⟨2, 3, [4, 5], 6, 7⟩) 9 (1 / 2) =
      ⟨2, 3, [4, 5], 0, 0⟩ ∧
    linear_svm_cg_init emptyCG (some ⟨1, 2, [3], [4], [5], 6, 7⟩) 9 =
      ⟨1, 2, [3], [4], List.replicate 1 0, 0, 0⟩ := by
  have h := transition_warm_start_init
  exact ⟨(h.1 emptyIGD ⟨2, 3, [4, 5], 6, 7⟩ 9 (1 / 2) rfl).1,
    (h.1 emptyIGD ⟨2, 3, [4, 5], 6, 7⟩ 2 (1 / 2) rfl).2,
    (h.2.1 emptyIGD ⟨2, 3, [4, 5], 6, 7⟩ 9 (1 / 2) rfl).1,
    (h.2.2 emptyCG ⟨1, 2, [3], [4], [5], 6, 7⟩ 9 rfl).1⟩

/-- C8: the external CG update step replaces the model by
`model + stepsize·direction` (allocating a zero model first if the state
is unallocated), and the model is never updated inside the aggregation
pass: the CG transition on an initialized state, the CG merge of
non-empty states, and the CG finalize all leave the model component
unchanged. -/
theorem cg_update_external_model_step :
    (∀ (s : GLMCGState) (dir : List ℚ) (d : Nat) (α : ℚ), s.dimension ≠ 0 →
      (linear_svm_cg_update s dir d α).model = vadd s.model (smul α dir)) ∧
    (∀ (s : GLMCGState) (dir : List ℚ) (d : Nat) (α : ℚ), s.dimension = 0 →
      (linear_svm_cg_update s dir d α).model =
        vadd (List.replicate d 0) (smul α dir)) ∧
    (∀ (s : GLMCGState) (x : List ℚ) (y : ℚ) (p : Option GLMCGState)
        (d : Nat), s.numRows ≠ 0 → x.length = s.dimension →
      ∃ t, linear_svm_cg_transition s x y p d = .ok t ∧ t.model = s.model) ∧
    (∀ l r : GLMCGState, l.numRows ≠ 0 → r.numRows ≠ 0 →
      (linear_svm_cg_merge l r).model = l.model) ∧
    (∀ s : GLMCGState, s.numRows ≠ 0 →
      ∃ t, linear_svm_cg_final s = some t ∧ t.model = s.model) := by
  refine ⟨fun s dir d α h => ?_, fun s dir d α h => ?_,
      fun s x y p d h1 h2 => ?_, fun l r hl hr => ?_, fun s h => ?_⟩
  · simp [linear_svm_cg_update, h]
  · simp [linear_svm_cg_update, h]
  · refine ⟨cgStep svmTask s x y, ?_, rfl⟩
    simp [linear_svm_cg_transition, linear_svm_cg_init, h1, h2]
  · simp [linear_svm_cg_merge, cgAlgoMerge, lossAlgoMergeCG, hl, hr]
  · refine ⟨{ cgAlgoFinal s with iteration := (cgAlgoFinal s).iteration + 1 },
      ?_, ?_⟩
    · simp [linear_svm_cg_final, h]
    · show (cgAlgoFinal s).model = s.model
      unfold cgAlgoFinal
      split <;> simp

/-- Witness for C8 at concrete inputs. -/
theorem cg_update_external_model_step_witness :
    (linear_svm_cg_update ⟨1, 0, [2], [0], [0], 0, 0⟩ [4] 1 3).model =
      vadd [2] (smul 3 [4]) ∧
    (linear_svm_cg_update emptyCG [4] 1 3).model =
      vadd (List.replicate 1 0) (smul 3 [4]) ∧
    (∃ t, linear_svm_cg_transition ⟨1, 0, [2], [0], [0], 5, 6⟩ [7] 1 none 1 =
      .ok t ∧ t.model = [2]) ∧
    (linear_svm_cg_merge ⟨1, 0, [2], [0], [0], 5, 6⟩
      ⟨1, 0, [2], [0], [0], 7, 8⟩).model = [2] ∧
    (∃ t, linear_svm_cg_final ⟨1, 0, [2], [3], [4], 5, 6⟩ = some t ∧
      t.model = [2]) := by
  have h := cg_update_external_model_step
  exact ⟨h.1 ⟨1, 0, [2], [0], [0], 0, 0⟩ [4] 1 3 (by decide),
    h.2.1 emptyCG [4] 1 3 rfl,
    h.2.2.1 ⟨1, 0, [2], [0], [0], 5, 6⟩ [7] 1 none 1 (by decide) rfl,
    h.2.2.2.1 ⟨1, 0, [2], [0], [0], 5, 6⟩ ⟨1, 0, [2], [0], [0], 7, 8⟩
      (by decide) (by decide),
    h.2.2.2.2 ⟨1, 0, [2], [3], [4], 5, 6⟩ (by decide)⟩

/-- Invariant of the scan loop: either the initial pair survives and the
initial minimum is ≤ every scanned entry, or the loop returns the entry
at some offset `k`, which is strictly below the initial minimum and every
earlier scanned entry (ties keep the earlier index) and ≤ every scanned
entry. -/
lemma argminLoop_spec (rem : List ℚ) : ∀ (i mini : Nat) (mn : ℚ),
    (argminLoop rem i mn mini = (mn, mini) ∧
      ∀ k, k < rem.length → mn ≤ rem.getD k 0) ∨
    (∃ k, k < rem.length ∧
      argminLoop rem i mn mini = (rem.getD k 0, i + k) ∧
      rem.getD k 0 < mn ∧
      (∀ j, j < k → rem.getD k 0 < rem.getD j 0) ∧
      (∀ j, j < rem.length → rem.getD k 0 ≤ rem.getD j 0)) := by
  induction rem with
  | nil =>
    intro i mini mn
    left
    exact ⟨rfl, fun k hk => by simp at hk⟩
  | cons l rest ih =>
    intro i mini mn
    by_cases hlt : l < mn
    · have hdef : argminLoop (l :: rest) i mn mini =
          argminLoop rest (i + 1) l i := by
        simp [argminLoop, hlt]
      right
      rcases ih (i + 1) i l with ⟨h1, h3⟩ | ⟨k, hk, h1, h3, h4, h5⟩
      · refine ⟨0, by simp, ?_, by simpa using hlt, ?_, ?_⟩
        · rw [hdef, h1]
          simp
        · intro j hj
          exact absurd hj (Nat.not_lt_zero j)
        · intro j hj
          cases j with
          | zero => simp
          | succ j' => simpa using h3 j' (by simpa using hj)
      · refine ⟨k + 1, by simpa using hk, ?_, ?_, ?_, ?_⟩
        · have harith : i + 1 + k = i + (k + 1) := by omega
          rw [hdef, h1, harith]
          simp
        · simpa using lt_trans h3 hlt
        · intro j hj
          cases j with
          | zero => simpa using h3
          | succ j' => simpa using h4 j' (by omega)
        · intro j hj
          cases j with
          | zero => simpa using le_of_lt h3
          | succ j' => simpa using h5 j' (by simpa using hj)
    · have hge : mn ≤ l := not_lt.mp hlt
      have hdef : argminLoop (l :: rest) i mn mini =
          argminLoop rest (i + 1) mn mini := by
        simp [argminLoop, hlt]
      rcases ih (i + 1) mini mn with ⟨h1, h3⟩ | ⟨k, hk, h1, h3, h4, h5⟩
      · left
        refine ⟨by rw [hdef, h1], ?_⟩
        intro j hj
        cases j with
        | zero => simpa using hge
        | succ j' => simpa using h3 j' (by simpa using hj)
      · right
        refine ⟨k + 1, by simpa using hk, ?_, by simpa using h3, ?_, ?_⟩
        · have harith : i + 1 + k = i + (k + 1) := by omega
          rw [hdef, h1, harith]
          simp
        · intro j hj
          cases j with
          | zero => simpa using lt_of_lt_of_le h3 hge
          | succ j' => simpa using h4 j' (by omega)
        · intro j hj
          cases j with
          | zero => simpa using le_of_lt (lt_of_lt_of_le h3 hge)
          | succ j' => simpa using h5 j' (by simpa using hj)

/-- C5: for equal-length, non-empty candidate-stepsize and loss-total
lists, the greedy step-size search returns the stepsize at an index
whose accumulated loss is minimal, and every strictly earlier index has
strictly larger loss (ties break to the lowest index). -/
theorem greedy_step_size_argmin (loss_list stepsizes : List ℚ)
    (hlen : loss_list.length = stepsizes.length)
    (hpos : 0 < stepsizes.length) :
    ∃ i0, i0 < stepsizes.length ∧
      linear_svm_greedy_step_size loss_list stepsizes = stepsizes.getD i0 0 ∧
      (∀ j, j < stepsizes.length →
        loss_list.getD i0 0 ≤ loss_list.getD j 0) ∧
      (∀ j, j < i0 → loss_list.getD i0 0 < loss_list.getD j 0) := by
  cases loss_list with
  | nil =>
    rw [← hlen] at hpos
    exact absurd hpos (by simp)
  | cons l0 rest =>
    have hrest : rest.length = stepsizes.length - 1 := by
      simp at hlen
      omega
    have htake : rest.take (stepsizes.length - 1) = rest :=
      List.take_of_length_le (le_of_eq hrest)
    have hfun : linear_svm_greedy_step_size (l0 :: rest) stepsizes =
        stepsizes.getD (argminLoop rest 1 l0 0).2 0 := by
      simp [linear_svm_greedy_step_size, htake]
    rcases argminLoop_spec rest 1 0 l0 with ⟨h1, h3⟩ | ⟨k, hk, h1, h3, h4, h5⟩
    · refine ⟨0, hpos, by rw [hfun, h1], ?_, ?_⟩
      · intro j hj
        cases j with
        | zero => simp
        | succ j' =>
          have hj' : j' < rest.length := by
            simp at hlen
            omega
          simpa using h3 j' hj'
      · intro j hj
        exact absurd hj (Nat.not_lt_zero j)
    · refine ⟨k + 1, ?_, ?_, ?_, ?_⟩
      · simp at hlen
        omega
      · rw [hfun, h1]
        have harith : 1 + k = k + 1 := by omega
        rw [harith]
      · intro j hj
        cases j with
        | zero => simpa using le_of_lt h3
        | succ j' =>
          have hj' : j' < rest.length := by
            simp at hlen
            omega
          simpa using h5 j' hj'
      · intro j hj
        cases j with
        | zero => simpa using h3
        | succ j' => simpa using h4 j' (by omega)

/-- Witness for C5: candidate losses `[3, 1, 1]` — the minimum total 1 is
shared by indices 1 and 2 and the search returns the stepsize at index
1. -/
theorem greedy_step_size_argmin_witness :
    ∃ i0, i0 < ([(2 : ℚ), 5, 9]).length ∧
      linear_svm_greedy_step_size [3, 1, 1] [2, 5, 9] =
        ([(2 : ℚ), 5, 9]).getD i0 0 ∧
      (∀ j, j < ([(2 : ℚ), 5, 9]).length →
        ([(3 : ℚ), 1, 1]).getD i0 0 ≤ ([(3 : ℚ), 1, 1]).getD j 0) ∧
      (∀ j, j < i0 → ([(3 : ℚ), 1, 1]).getD i0 0 < ([(3 : ℚ), 1, 1]).getD j 0) :=
  greedy_step_size_argmin [3, 1, 1] [2, 5, 9] rfl (by norm_num)

/-- C9: prediction for the classification objectives thresholds the
score: the SVM predict returns true exactly when the linear score
exceeds 0, and the logistic predict returns true exactly when the
predicted probability exceeds 0.5. -/
theorem predict_threshold (sigmoid : ℚ → ℚ) (model x : List ℚ) :
    (linear_svm_predict model x = true ↔ 0 < dot model x) ∧
    (logit_igd_predict sigmoid model x = true ↔
      1 / 2 < Logit.predict sigmoid model x) := by
  constructor <;>
    simp [linear_svm_predict, logit_igd_predict, LinearSVM.predict]

/-- C10: a feature vector lying exactly on the decision boundary
(linear score `model·x == 0`) is classified as the negative label: the
strict threshold makes the SVM predict return false. -/
theorem svm_predict_zero_score_false (model x : List ℚ)
    (h : dot model x = 0) : linear_svm_predict model x = false := by
  simp [linear_svm_predict, LinearSVM.predict, h]

/-- Witness for C10: `[1, −1]·[1, 1] = 0` and predict returns false. -/
theorem svm_predict_zero_score_false_witness :
    dot [1, -1] [1, 1] = 0 ∧ linear_svm_predict [1, -1] [1, 1] = false := by
  refine ⟨?_, svm_predict_zero_score_false [1, -1] [1, 1] ?_⟩ <;>
    norm_num [dot]

end Madlib
